import Mathlib

/-!
Verification of the resilience layer of the Moodle-Sample-Exams repository:
the TTL in-memory cache (`cache_manager.py`) and the retry executor
(`retry_manager.py`), shallowly embedded in Lean.

Modelling conventions:
* Clock readings (`time.time()`) are rationals; each operation receives the
  clock reading at which it runs as an explicit `now` argument.
* TTLs are integers (seconds), as in the Python signatures.
* Python values are `PyVal`, with a distinguished `PyVal.none` mirroring
  Python's `None` (which the cache also uses for "absent").
* The cache dictionary is an association list keyed by strings; `set`
  removes any previous binding of the key and conses the fresh entry.
* Exceptions are an abstract type `ε` together with a boolean classifier
  `retryable : ε → Bool` standing for the `isinstance` scan over
  `retry_exceptions`.
-/

/-- A Python value; `PyVal.none` is Python's `None`. -/
inductive PyVal where
  | none : PyVal
  | int : ℤ → PyVal
  | str : String → PyVal
  | bool : Bool → PyVal
deriving DecidableEq, Repr

/-- `CacheItem` from cache_manager.py lines 23-39: a value together with an
absolute expiry timestamp. -/
structure CacheItem where
  value : PyVal
  expiry : ℚ
deriving DecidableEq, Repr

/-- `CacheItem.__init__` (line 34-35): `self.expiry = time.time() + ttl`,
with `now` the clock reading taken inside the constructor. -/
def CacheItem.init (value : PyVal) (ttl : ℤ) (now : ℚ) : CacheItem :=
  ⟨value, now + (ttl : ℚ)⟩

/-- `CacheItem.is_expired` (line 37-39): `time.time() > self.expiry`,
a strict comparison. -/
def CacheItem.isExpired (it : CacheItem) (now : ℚ) : Bool :=
  decide (it.expiry < now)

/-- The cache dictionary `self._cache : Dict[str, CacheItem]`. -/
abbrev Cache : Type := List (String × CacheItem)

/-- `CacheManager.set` (lines 128-143) with an explicit `ttl`:
`self._cache[key] = CacheItem(value, ttl)` — the old binding of `key`,
if any, is fully replaced. -/
def cacheSet (c : Cache) (key : String) (value : PyVal) (ttl : ℤ) (now : ℚ) :
    Cache :=
  (key, CacheItem.init value ttl now) :: c.filter (fun e => e.1 != key)

/-- `CacheManager.set` with `ttl=None` (lines 138-139): falls back to
`self._default_ttl`. -/
def cacheSetOpt (c : Cache) (key : String) (value : PyVal) (ttl : Option ℤ)
    (defaultTtl : ℤ) (now : ℚ) : Cache :=
  cacheSet c key value (ttl.getD defaultTtl) now

/-- `CacheManager.get` (lines 104-126): returns the Python return value
(`None` on a miss or on an expired entry, which it deletes as a side
effect) together with the cache state afterwards. -/
def cacheGet (c : Cache) (key : String) (now : ℚ) : PyVal × Cache :=
  match c.lookup key with
  | some item =>
    if item.isExpired now then (PyVal.none, c.filter (fun e => e.1 != key))
    else (item.value, c)
  | Option.none => (PyVal.none, c)

/-- `CacheManager.delete` (lines 145-161): removes the key if present and
reports whether it was. -/
def cacheDelete (c : Cache) (key : String) : Cache × Bool :=
  match c.lookup key with
  | some _ => (c.filter (fun e => e.1 != key), true)
  | Option.none => (c, false)

/-- `CacheManager.clear` (lines 163-169): `count = len(self._cache)` is
computed but only interpolated into a log line; the method body has no
`return`, so the Python return value is `None` (modelled `Option.none`);
the second component is the returned value. -/
def cacheClear (c : Cache) : Cache × Option ℕ :=
  ([], Option.none)

/-- The statistics dictionary returned by `CacheManager.get_stats`. -/
structure CacheStats where
  totalItems : ℕ
  expiredItems : ℕ
  activeItems : ℕ
  defaultTtl : ℤ
deriving DecidableEq, Repr

/-- `CacheManager.get_stats` (lines 171-188). -/
def getStats (c : Cache) (now : ℚ) (defaultTtl : ℤ) : CacheStats :=
  let total := c.length
  let expired := (c.filter (fun e => e.2.isExpired now)).length
  ⟨total, expired, total - expired, defaultTtl⟩

/-- `CacheManager.cleanup` (lines 93-102): collect the keys of the expired
entries, then delete each collected key. -/
def cacheCleanup (c : Cache) (now : ℚ) : Cache :=
  let expiredKeys := (c.filter (fun e => e.2.isExpired now)).map (fun e => e.1)
  c.filter (fun e => decide (e.1 ∉ expiredKeys))

/-- The result of one call to a `@cached`-wrapped function: the Python
return value, the cache state afterwards, and whether the underlying
function was actually invoked. -/
structure CallResult where
  ret : PyVal
  cache : Cache
  invoked : Bool

/-- The body of the `cached` wrapper (cache_manager.py lines 231-242) for an
already-computed cache key: `cached_value = cache_manager.get(cache_key)`;
`if cached_value is not None: return cached_value`; otherwise invoke the
function, `set` its result and return it. -/
def cachedStep (c : Cache) (key : String) (f : Unit → PyVal) (ttl : ℤ)
    (now : ℚ) : CallResult :=
  let r := cacheGet c key now
  if r.1 ≠ PyVal.none then ⟨r.1, r.2, false⟩
  else
    let result := f ()
    ⟨result, cacheSet r.2 key result ttl now, true⟩

/-- A two-entry cache used to instantiate the hypothesised theorems: at
clock reading `5`, the entry at key `"a"` (expiry `0`) is expired and the
one at key `"b"` (expiry `10`) is not. -/
def sampleCache : Cache :=
  [("a", ⟨PyVal.int 1, 0⟩), ("b", ⟨PyVal.int 2, 10⟩)]

/-- A positional argument of a `@cached`-wrapped call, as the key builder
sees it: `str(arg)` when stringification succeeds (`strOpt = some s`),
otherwise only `type(arg).__name__`. -/
structure PyArg where
  strOpt : Option String
  typeName : String
deriving DecidableEq, Repr

/-- One positional-argument key part (cache_manager.py lines 214-218):
`str(arg)`, falling back to `type(arg).__name__`. -/
def argKeyPart (a : PyArg) : String :=
  match a.strOpt with
  | some s => s
  | Option.none => a.typeName

/-- One keyword-argument key part (lines 221-225): `f"{k}:{v}"`, falling
back to `f"{k}:{type(v).__name__}"`. -/
def kwargKeyPart (p : String × PyArg) : String :=
  match p.2.strOpt with
  | some s => p.1 ++ ":" ++ s
  | Option.none => p.1 ++ ":" ++ p.2.typeName

/-- `sorted(kwargs.items())` (line 221): keyword arguments sorted by name
(dictionary keys are unique, so the value never takes part in the
comparison). -/
def sortKwargs (l : List (String × PyArg)) : List (String × PyArg) :=
  l.insertionSort (fun a b => a.1 ≤ b.1)

/-- The joined pre-hash key string (lines 211-228):
`":".join([func.__module__, func.__name__] + arg parts + kwarg parts)`. -/
def defaultKeyString (modName fnName : String) (args : List PyArg)
    (kwargs : List (String × PyArg)) : String :=
  String.intercalate ":"
    ([modName, fnName] ++ args.map argKeyPart ++
      (sortKwargs kwargs).map kwargKeyPart)

/-- The cache key chosen by the `cached` wrapper (lines 207-229): an
explicit `key_func` takes total precedence; otherwise the md5 hexdigest —
modelled as an abstract function `digest` on strings — of the default key
string. -/
def cacheKeyOf (digest : String → String)
    (keyFunc : Option (List PyArg → List (String × PyArg) → String))
    (modName fnName : String) (args : List PyArg)
    (kwargs : List (String × PyArg)) : String :=
  match keyFunc with
  | some kf => kf args kwargs
  | Option.none => digest (defaultKeyString modName fnName args kwargs)

/-- The observable outcome of `RetryManager.retry`
(retry_manager.py lines 109-154): a returned value, a re-raised
non-retryable exception, or a `RetryError` carrying
`original_exception` and `attempts` (lines 21-35). -/
inductive RetryOutcome (ε α : Type) where
  | ok : α → RetryOutcome ε α
  | reraise : ε → RetryOutcome ε α
  | exhausted : Option ε → ℕ → RetryOutcome ε α
deriving DecidableEq, Repr

/-- A full trace of one `RetryManager.retry` call: the outcome, the number
of invocations of `func`, and the sequence of `time.sleep` delays in
milliseconds. -/
structure RetryTrace (ε α : Type) where
  outcome : RetryOutcome ε α
  calls : ℕ
  delays : List ℚ
deriving DecidableEq, Repr

/-- The retry configuration in effect inside one `retry` call:
`actual_max_retries`, `actual_retry_delay` (ms), `self.max_delay`,
`self.backoff_factor`, `self.jitter`. -/
structure RetryParams where
  maxRetries : ℕ
  retryDelay : ℚ
  maxDelay : ℚ
  backoffFactor : ℚ
  jitter : Bool
deriving Repr

/-- The delay computed before the retry that will be invocation number
`attempts` (lines 137-148, after `attempts += 1`):
`min(retry_delay * backoff_factor ** (attempts - 1), max_delay)`, then
multiplied by the jitter factor (`1 + uniform(-0.2, 0.2)`, here an
arbitrary sequence `jfac`) when jitter is enabled. -/
def backoffDelayMs (p : RetryParams) (jfac : ℕ → ℚ) (attempts : ℕ) : ℚ :=
  let d := min (p.retryDelay * p.backoffFactor ^ (attempts - 1)) p.maxDelay
  if p.jitter then d * jfac attempts else d

/-- The `while attempts <= actual_max_retries` loop of
`RetryManager.retry` (lines 116-154), entered with `attempts` failures so
far, so the next invocation of `func` is invocation number `attempts`
(0-based): on success return; on a non-retryable exception re-raise it; on
a retryable one increment `attempts`, break out to
`raise RetryError(last_exception, attempts)` when `attempts` now exceeds
the bound, and otherwise sleep for the backoff delay and loop. -/
def retryFrom {ε α : Type} (p : RetryParams) (retryable : ε → Bool)
    (jfac : ℕ → ℚ) (op : ℕ → Except ε α) (attempts : ℕ) : RetryTrace ε α :=
  if h : attempts ≤ p.maxRetries then
    match op attempts with
    | Except.ok v => ⟨RetryOutcome.ok v, 1, []⟩
    | Except.error e =>
      if retryable e then
        if h2 : p.maxRetries < attempts + 1 then
          ⟨RetryOutcome.exhausted (some e) (attempts + 1), 1, []⟩
        else
          let rest := retryFrom p retryable jfac op (attempts + 1)
          ⟨rest.outcome, rest.calls + 1,
            backoffDelayMs p jfac (attempts + 1) :: rest.delays⟩
      else ⟨RetryOutcome.reraise e, 1, []⟩
  else ⟨RetryOutcome.exhausted Option.none attempts, 0, []⟩
termination_by p.maxRetries + 1 - attempts
decreasing_by omega

/-- `RetryManager.retry` itself: the loop entered with `attempts = 0`
(line 109); `op i` is what the `i`-th invocation of `func` does. -/
def retryExec {ε α : Type} (p : RetryParams) (retryable : ε → Bool)
    (jfac : ℕ → ℚ) (op : ℕ → Except ε α) : RetryTrace ε α :=
  retryFrom p retryable jfac op 0

/-- C4 counterexample: with `ttl = 0` and the `get` running at the very
same clock reading as the `set` (two consecutive `time.time()` calls may
return equal values), the entry is *not* expired — `is_expired` uses the
strict comparison `time.time() > expiry` — so `get` returns the stored
value, not `None`; the claim "for every ttl T ≤ 0 the entry reads back as
absent immediately after `set`" fails at this boundary. -/
theorem set_nonpos_ttl_immediate_get_cex :
    (cacheGet (cacheSet [] "k" (PyVal.int 1) 0 0) "k" 0).1 = PyVal.int 1 ∧
      PyVal.int 1 ≠ PyVal.none := by
  have hexp : ¬ ((0 + ((0 : ℤ) : ℚ)) < 0) := by norm_num
  constructor
  · simp [cacheGet, cacheSet, CacheItem.init, CacheItem.isExpired,
      List.lookup, hexp]
  · decide

/-- C4 (amended): for every ttl `T ≤ 0`, a `get` of the key at any clock
reading strictly later than the `set`'s returns `None`: the entry is
already expired. (Strictness is needed only for the boundary `T = 0`.) -/
theorem set_nonpos_ttl_get_absent (c : Cache) (k : String) (v : PyVal)
    (T : ℤ) (t t' : ℚ) (hT : T ≤ 0) (ht : t < t') :
    (cacheGet (cacheSet c k v T t) k t').1 = PyVal.none := by
  have hexp : ((t + (T : ℚ)) < t') := by
    have : (T : ℚ) ≤ 0 := by exact_mod_cast hT
    linarith
  simp [cacheGet, cacheSet, CacheItem.init, CacheItem.isExpired,
    List.lookup, hexp]

/-- C4 witness. -/
theorem set_nonpos_ttl_get_absent_witness :
    (cacheGet (cacheSet [] "k" (PyVal.int 7) (-2) 0) "k" 1).1 = PyVal.none :=
  set_nonpos_ttl_get_absent [] "k" (PyVal.int 7) (-2) 0 1 (by norm_num)
    (by norm_num)

/-- C6: immediately after `set(K, V, T)` with `T > 0` — that is, at any
clock reading in the window `[t, t + T]` — `get(K)` returns `V`; and a
re-`set` of an existing key fully replaces the old entry, so the resulting
cache state is the one a `set` on a cache without that old entry would
produce, discarding the previous remaining TTL entirely. -/
theorem set_pos_ttl_get_returns_value (c : Cache) (k : String)
    (v v₁ : PyVal) (T T₁ : ℤ) (t t₁ t' : ℚ) (hT : 0 < T) (h1 : t ≤ t')
    (h2 : t' ≤ t + (T : ℚ)) :
    (cacheGet (cacheSet c k v T t) k t').1 = v ∧
      cacheSet (cacheSet c k v₁ T₁ t₁) k v T t = cacheSet c k v T t := by
  constructor
  · have hexp : ¬ ((t + (T : ℚ)) < t') := not_lt.mpr h2
    simp [cacheGet, cacheSet, CacheItem.init, CacheItem.isExpired, hexp,
      List.lookup]
  · simp [cacheSet, List.filter_filter]

/-- C6 witness. -/
theorem set_pos_ttl_get_returns_value_witness :
    (cacheGet (cacheSet [] "k" (PyVal.str "v") 5 0) "k" 1).1 =
        PyVal.str "v" ∧
      cacheSet (cacheSet [] "k" (PyVal.int 3) 9 0) "k" (PyVal.str "v") 5 0 =
        cacheSet [] "k" (PyVal.str "v") 5 0 :=
  set_pos_ttl_get_returns_value [] "k" (PyVal.str "v") (PyVal.int 3) 5 9 0 0 1
    (by norm_num) (by norm_num) (by norm_num)

/-- C5 counterexample: on a cache holding one entry, `clear` removes it but
its Python return value is `None` (`Option.none` here), not the removed
count `1`: the claim that `clear()` returns the count of removed entries is
false — the count is only interpolated into a log message. -/
theorem clear_returns_count_cex :
    (cacheClear [("a", ⟨PyVal.int 1, 10⟩)]).2 = Option.none ∧
      ([("a", (⟨PyVal.int 1, 10⟩ : CacheItem))] : Cache).length = 1 ∧
      (Option.none : Option ℕ) ≠ some 1 := by
  refine ⟨rfl, rfl, by decide⟩

/-- C5 (amended): `clear()` removes every entry — `get_stats` reports a
total of `0` immediately after — and returns `None`; the count of removed
entries is only logged, not returned. -/
theorem clear_empties_cache (c : Cache) (now : ℚ) (defaultTtl : ℤ) :
    (cacheClear c).1 = [] ∧
      (getStats (cacheClear c).1 now defaultTtl).totalItems = 0 ∧
      (cacheClear c).2 = Option.none := by
  refine ⟨rfl, rfl, rfl⟩

/-- C8: a single call to `cleanup` (the body of the background sweep, with
no intervening `get`) removes exactly the entries expired at that moment:
every surviving entry was already present and is unexpired, and every
unexpired entry of the original cache survives unchanged. The key-
uniqueness hypothesis is the dictionary invariant of `self._cache`. -/
theorem cleanup_removes_exactly_expired (c : Cache) (now : ℚ)
    (hnd : (c.map (fun e => e.1)).Nodup) :
    (∀ e ∈ cacheCleanup c now, e ∈ c ∧ e.2.isExpired now = false) ∧
      (∀ e ∈ c, e.2.isExpired now = false → e ∈ cacheCleanup c now) := by
  constructor
  · intro e he
    unfold cacheCleanup at he
    rw [List.mem_filter] at he
    obtain ⟨hec, hkey⟩ := he
    rw [decide_eq_true_eq] at hkey
    refine ⟨hec, ?_⟩
    by_contra hx
    rw [Bool.not_eq_false] at hx
    exact hkey (List.mem_map_of_mem _ (List.mem_filter.mpr ⟨hec, hx⟩))
  · intro e hec hne
    unfold cacheCleanup
    rw [List.mem_filter, decide_eq_true_eq]
    refine ⟨hec, ?_⟩
    intro hmem
    obtain ⟨e', he', hkeq⟩ := List.mem_map.mp hmem
    obtain ⟨he'c, he'x⟩ := List.mem_filter.mp he'
    have : e' = e := List.inj_on_of_nodup_map hnd he'c hec hkeq
    rw [this] at he'x
    rw [he'x] at hne
    simp at hne

/-- C8 witness. -/
theorem cleanup_removes_exactly_expired_witness :
    (sampleCache.map (fun e => e.1)).Nodup ∧
      ((∀ e ∈ cacheCleanup sampleCache 5,
          e ∈ sampleCache ∧ e.2.isExpired 5 = false) ∧
        (∀ e ∈ sampleCache,
          e.2.isExpired 5 = false → e ∈ cacheCleanup sampleCache 5)) :=
  ⟨by simp [sampleCache],
    cleanup_removes_exactly_expired sampleCache 5 (by simp [sampleCache])⟩

/-- C10: the `cached` wrapper treats a `None` result of `get` as a miss.
Starting from any cache state in which `get` at the key yields `None`, a
call whose wrapped function returns `None` (1) invokes the function, and
(2) leaves a cache from which a later `get` at that key still yields
`None`; moreover (3) a `get` at a key with no entry at all yields the same
`None` — at the public interface a cached `None` is indistinguishable from
absence, so such a function is re-invoked on every call. -/
theorem cached_none_always_reinvoked (c c₀ : Cache) (k : String) (T : ℤ)
    (t t' : ℚ) (f : Unit → PyVal) (hf : ∀ u, f u = PyVal.none)
    (hmiss : (cacheGet c₀ k t).1 = PyVal.none)
    (habsent : c.lookup k = Option.none) :
    (cachedStep c₀ k f T t).invoked = true ∧
      (cacheGet (cachedStep c₀ k f T t).cache k t').1 = PyVal.none ∧
      (cacheGet c k t').1 = PyVal.none := by
  have hstep : cachedStep c₀ k f T t =
      ⟨f (), cacheSet (cacheGet c₀ k t).2 k (f ()) T t, true⟩ := by
    unfold cachedStep
    simp [hmiss]
  refine ⟨by rw [hstep], ?_, ?_⟩
  · rw [hstep]
    simp only [cacheGet, cacheSet, CacheItem.init, List.lookup, hf,
      beq_self_eq_true]
    split <;> rfl
  · simp [cacheGet, habsent]

/-- C10 witness. -/
theorem cached_none_always_reinvoked_witness :
    (cachedStep [] "k" (fun _ => PyVal.none) 60 0).invoked = true ∧
      (cacheGet (cachedStep [] "k" (fun _ => PyVal.none) 60 0).cache
          "k" 1).1 = PyVal.none ∧
      (cacheGet [] "k" 1).1 = PyVal.none :=
  cached_none_always_reinvoked [] [] "k" 60 0 1 (fun _ => PyVal.none)
    (fun _ => rfl) rfl rfl

/-- Loop unfolding: a successful invocation returns at once. -/
theorem retryFrom_ok {ε α : Type} (p : RetryParams) (retryable : ε → Bool)
    (jfac : ℕ → ℚ) (op : ℕ → Except ε α) {attempts : ℕ} {v : α}
    (h : attempts ≤ p.maxRetries) (hop : op attempts = Except.ok v) :
    retryFrom p retryable jfac op attempts = ⟨RetryOutcome.ok v, 1, []⟩ := by
  unfold retryFrom
  rw [dif_pos h, hop]

/-- Loop unfolding: a non-retryable exception is re-raised immediately. -/
theorem retryFrom_reraise {ε α : Type} (p : RetryParams)
    (retryable : ε → Bool) (jfac : ℕ → ℚ) (op : ℕ → Except ε α)
    {attempts : ℕ} {e : ε} (h : attempts ≤ p.maxRetries)
    (hop : op attempts = Except.error e) (hre : retryable e = false) :
    retryFrom p retryable jfac op attempts =
      ⟨RetryOutcome.reraise e, 1, []⟩ := by
  unfold retryFrom
  rw [dif_pos h, hop]
  simp [hre]

/-- Loop unfolding: a retryable exception with the retry budget exhausted
breaks out and raises `RetryError(e, attempts + 1)`. -/
theorem retryFrom_break {ε α : Type} (p : RetryParams)
    (retryable : ε → Bool) (jfac : ℕ → ℚ) (op : ℕ → Except ε α)
    {attempts : ℕ} {e : ε} (h : attempts ≤ p.maxRetries)
    (hop : op attempts = Except.error e) (hre : retryable e = true)
    (h2 : p.maxRetries < attempts + 1) :
    retryFrom p retryable jfac op attempts =
      ⟨RetryOutcome.exhausted (some e) (attempts + 1), 1, []⟩ := by
  unfold retryFrom
  rw [dif_pos h, hop]
  simp [hre, h2]

/-- Loop unfolding: a retryable exception with budget left sleeps for the
backoff delay and loops with `attempts + 1`. -/
theorem retryFrom_retry {ε α : Type} (p : RetryParams)
    (retryable : ε → Bool) (jfac : ℕ → ℚ) (op : ℕ → Except ε α)
    {attempts : ℕ} {e : ε} (h : attempts ≤ p.maxRetries)
    (hop : op attempts = Except.error e) (hre : retryable e = true)
    (h2 : ¬ p.maxRetries < attempts + 1) :
    retryFrom p retryable jfac op attempts =
      ⟨(retryFrom p retryable jfac op (attempts + 1)).outcome,
        (retryFrom p retryable jfac op (attempts + 1)).calls + 1,
        backoffDelayMs p jfac (attempts + 1) ::
          (retryFrom p retryable jfac op (attempts + 1)).delays⟩ := by
  conv_lhs => rw [retryFrom]
  rw [dif_pos h, hop]
  simp [hre, h2]

/-- Run shape of the loop when every invocation fails with a retryable
exception, entered with `n` retries still allowed. -/
theorem retryFrom_alwaysFail {ε α : Type} (p : RetryParams)
    (retryable : ε → Bool) (jfac : ℕ → ℚ) (op : ℕ → Except ε α)
    (es : ℕ → ε) (hop : ∀ i, op i = Except.error (es i))
    (hr : ∀ i, retryable (es i) = true) :
    ∀ n attempts, p.maxRetries = attempts + n →
      retryFrom p retryable jfac op attempts =
        ⟨RetryOutcome.exhausted (some (es p.maxRetries)) (p.maxRetries + 1),
          n + 1,
          (List.range' (attempts + 1) n).map (backoffDelayMs p jfac)⟩ := by
  intro n
  induction n with
  | zero =>
    intro attempts hM
    rw [retryFrom_break p retryable jfac op (by omega) (hop attempts)
      (hr attempts) (by omega)]
    have ha : attempts = p.maxRetries := by omega
    subst ha
    rfl
  | succ n ih =>
    intro attempts hM
    rw [retryFrom_retry p retryable jfac op (by omega) (hop attempts)
      (hr attempts) (by omega)]
    rw [ih (attempts + 1) (by omega)]
    rw [List.range'_succ]
    rfl

/-- Run shape of the loop when the next `n` invocations fail with
retryable exceptions and the one after that succeeds. -/
theorem retryFrom_failThenOk {ε α : Type} (p : RetryParams)
    (retryable : ε → Bool) (jfac : ℕ → ℚ) (op : ℕ → Except ε α)
    (es : ℕ → ε) (N : ℕ) (v : α) (hN : N ≤ p.maxRetries)
    (hop : ∀ i < N, op i = Except.error (es i))
    (hr : ∀ i < N, retryable (es i) = true)
    (hsucc : op N = Except.ok v) :
    ∀ n attempts, N = attempts + n →
      retryFrom p retryable jfac op attempts =
        ⟨RetryOutcome.ok v, n + 1,
          (List.range' (attempts + 1) n).map (backoffDelayMs p jfac)⟩ := by
  intro n
  induction n with
  | zero =>
    intro attempts hM
    have ha : attempts = N := by omega
    subst ha
    rw [retryFrom_ok p retryable jfac op (by omega) hsucc]
    rfl
  | succ n ih =>
    intro attempts hM
    rw [retryFrom_retry p retryable jfac op (by omega)
      (hop attempts (by omega)) (hr attempts (by omega)) (by omega)]
    rw [ih (attempts + 1) (by omega)]
    rw [List.range'_succ]
    rfl

/-- C1: an operation raising a retryable exception on every invocation is
invoked exactly `max_retries + 1` times and the call ends in
`RetryError` whose `attempts` field is `max_retries + 1` and whose
`original_exception` is the exception of the final invocation
(`op p.maxRetries`); the outcome is `exhausted`, never `reraise`, so the
raw transient exception is not propagated. -/
theorem retry_exhaustion_raises_retry_error {ε α : Type} (p : RetryParams)
    (retryable : ε → Bool) (jfac : ℕ → ℚ) (op : ℕ → Except ε α)
    (es : ℕ → ε) (hop : ∀ i, op i = Except.error (es i))
    (hr : ∀ i, retryable (es i) = true) :
    retryExec p retryable jfac op =
      ⟨RetryOutcome.exhausted (some (es p.maxRetries)) (p.maxRetries + 1),
        p.maxRetries + 1,
        (List.range' 1 p.maxRetries).map (backoffDelayMs p jfac)⟩ := by
  unfold retryExec
  rw [retryFrom_alwaysFail p retryable jfac op es hop hr p.maxRetries 0
    (by omega)]

/-- C1 witness. -/
theorem retry_exhaustion_raises_retry_error_witness :
    retryExec ⟨2, 100, 300, 2, false⟩ (fun _ : String => true) (fun _ => 1)
        (fun _ => (Except.error "boom" : Except String ℕ)) =
      ⟨RetryOutcome.exhausted (some "boom") 3, 3, [100, 200]⟩ := by
  rw [retry_exhaustion_raises_retry_error ⟨2, 100, 300, 2, false⟩
    (fun _ : String => true) (fun _ => 1)
    (fun _ => (Except.error "boom" : Except String ℕ))
    (fun _ => "boom") (fun _ => rfl) (fun _ => rfl)]
  have hr2 : List.range' 1 2 = [1, 2] := rfl
  rw [hr2]
  norm_num [backoffDelayMs, min_def]

/-- C2: an operation whose first invocation raises a non-retryable
exception is invoked exactly once, no sleep is performed, and that exact
exception is re-raised unchanged — the outcome is `reraise e`, not a
`RetryError`. -/
theorem retry_nonretryable_reraises {ε α : Type} (p : RetryParams)
    (retryable : ε → Bool) (jfac : ℕ → ℚ) (op : ℕ → Except ε α) (e : ε)
    (hop : op 0 = Except.error e) (hre : retryable e = false) :
    retryExec p retryable jfac op = ⟨RetryOutcome.reraise e, 1, []⟩ := by
  unfold retryExec
  exact retryFrom_reraise p retryable jfac op (Nat.zero_le _) hop hre

/-- C2 witness. -/
theorem retry_nonretryable_reraises_witness :
    retryExec ⟨3, 100, 300, 2, true⟩ (fun _ : String => false) (fun _ => 1)
        (fun _ => (Except.error "bad" : Except String ℕ)) =
      ⟨RetryOutcome.reraise "bad", 1, []⟩ :=
  retry_nonretryable_reraises ⟨3, 100, 300, 2, true⟩
    (fun _ : String => false) (fun _ => 1)
    (fun _ => (Except.error "bad" : Except String ℕ)) "bad" rfl rfl

/-- C3: with jitter disabled, the delay before the `i`-th retry
(`i = 1, …, max_retries`) of an always-failing retryable operation is
`min(retry_delay * backoff_factor ^ (i - 1), max_delay)`; the witness
instantiates the policy `base = 100`, `factor = 2`, `max = 300`,
`max_retries = 4` and obtains the delays `[100, 200, 300, 300]`, whose
first element is `base_delay`. -/
theorem retry_backoff_delay_schedule {ε α : Type} (p : RetryParams)
    (retryable : ε → Bool) (jfac : ℕ → ℚ) (op : ℕ → Except ε α)
    (es : ℕ → ε) (hjit : p.jitter = false)
    (hop : ∀ i, op i = Except.error (es i))
    (hr : ∀ i, retryable (es i) = true) :
    (retryExec p retryable jfac op).delays =
      (List.range' 1 p.maxRetries).map
        (fun i => min (p.retryDelay * p.backoffFactor ^ (i - 1))
          p.maxDelay) := by
  unfold retryExec
  rw [retryFrom_alwaysFail p retryable jfac op es hop hr p.maxRetries 0
    (by omega)]
  exact List.map_congr_left (fun i _ => by simp [backoffDelayMs, hjit])

/-- C3 witness: the delays of the concrete policy, and that the first
delay equals the base delay. -/
theorem retry_backoff_delay_schedule_witness :
    (retryExec ⟨4, 100, 300, 2, false⟩ (fun _ : String => true)
        (fun _ => 1)
        (fun _ => (Except.error "boom" : Except String ℕ))).delays =
        [100, 200, 300, 300] ∧
      ((retryExec ⟨4, 100, 300, 2, false⟩ (fun _ : String => true)
          (fun _ => 1)
          (fun _ => (Except.error "boom" : Except String ℕ))).delays).head? =
        some 100 := by
  have h := retry_backoff_delay_schedule ⟨4, 100, 300, 2, false⟩
    (fun _ : String => true) (fun _ => 1)
    (fun _ => (Except.error "boom" : Except String ℕ))
    (fun _ => "boom") rfl (fun _ => rfl) (fun _ => rfl)
  have hr4 : List.range' 1 4 = [1, 2, 3, 4] := rfl
  rw [hr4] at h
  rw [h]
  norm_num [min_def]

/-- C7: an operation raising retryable exceptions on its first `N`
invocations (`N ≤ max_retries`) and succeeding on invocation `N` is
invoked exactly `N + 1` times, and `retry` returns its success value. -/
theorem retry_eventual_success {ε α : Type} (p : RetryParams)
    (retryable : ε → Bool) (jfac : ℕ → ℚ) (op : ℕ → Except ε α)
    (es : ℕ → ε) (N : ℕ) (v : α) (hN : N ≤ p.maxRetries)
    (hop : ∀ i < N, op i = Except.error (es i))
    (hr : ∀ i < N, retryable (es i) = true)
    (hsucc : op N = Except.ok v) :
    retryExec p retryable jfac op =
      ⟨RetryOutcome.ok v, N + 1,
        (List.range' 1 N).map (backoffDelayMs p jfac)⟩ := by
  unfold retryExec
  rw [retryFrom_failThenOk p retryable jfac op es N v hN hop hr hsucc N 0
    (by omega)]

/-- C7 witness: one retryable failure, then success on the second
invocation. -/
theorem retry_eventual_success_witness :
    retryExec ⟨3, 100, 300, 2, false⟩ (fun _ : String => true) (fun _ => 1)
        (fun i => if i = 0 then Except.error "boom" else Except.ok 42) =
      ⟨RetryOutcome.ok 42, 2, [100]⟩ := by
  rw [retry_eventual_success ⟨3, 100, 300, 2, false⟩
    (fun _ : String => true) (fun _ => 1)
    (fun i => if i = 0 then Except.error "boom" else Except.ok 42)
    (fun _ => "boom") 1 42 (by norm_num)
    (fun i hi => by
      have : i = 0 := by omega
      subst this
      rfl)
    (fun i hi => rfl) rfl]
  have hr1 : List.range' 1 1 = [1] := rfl
  rw [hr1]
  norm_num [backoffDelayMs, min_def]

/-- C9: the default cache-key derivation is deterministic — equal
stringifications of the positional arguments and of the name-sorted
keyword arguments yield the same key; an argument whose stringification
fails contributes only its type name, both positionally and as a keyword;
and an explicit `key_func` takes total precedence over the default
scheme. -/
theorem cached_key_derivation (digest : String → String)
    (modName fnName kname : String) (args₁ args₂ : List PyArg)
    (kw₁ kw₂ : List (String × PyArg))
    (kf : List PyArg → List (String × PyArg) → String) (a : PyArg)
    (ha : a.strOpt = Option.none)
    (hargs : args₁.map argKeyPart = args₂.map argKeyPart)
    (hkw : (sortKwargs kw₁).map kwargKeyPart =
      (sortKwargs kw₂).map kwargKeyPart) :
    cacheKeyOf digest Option.none modName fnName args₁ kw₁ =
        cacheKeyOf digest Option.none modName fnName args₂ kw₂ ∧
      argKeyPart a = a.typeName ∧
      kwargKeyPart (kname, a) = kname ++ ":" ++ a.typeName ∧
      cacheKeyOf digest (some kf) modName fnName args₁ kw₁ =
        kf args₁ kw₁ := by
  refine ⟨?_, ?_, ?_, rfl⟩
  · simp [cacheKeyOf, defaultKeyString, hargs, hkw]
  · simp [argKeyPart, ha]
  · simp [kwargKeyPart, ha]

/-- C9 witness: two argument lists with equal stringifications but
different type names produce the same key. -/
theorem cached_key_derivation_witness :
    cacheKeyOf (fun s => s) Option.none "m" "f" [⟨some "1", "int"⟩]
        [("b", ⟨some "2", "int"⟩)] =
      cacheKeyOf (fun s => s) Option.none "m" "f" [⟨some "1", "str"⟩]
        [("b", ⟨some "2", "str"⟩)] ∧
      argKeyPart ⟨Option.none, "object"⟩ = "object" ∧
      kwargKeyPart ("x", ⟨Option.none, "object"⟩) = "x" ++ ":" ++ "object" ∧
      cacheKeyOf (fun s => s) (some (fun _ _ => "K")) "m" "f"
        [⟨some "1", "int"⟩] [("b", ⟨some "2", "int"⟩)] = "K" :=
  cached_key_derivation (fun s => s) "m" "f" "x" [⟨some "1", "int"⟩]
    [⟨some "1", "str"⟩] [("b", ⟨some "2", "int"⟩)]
    [("b", ⟨some "2", "str"⟩)] (fun _ _ => "K") ⟨Option.none, "object"⟩
    rfl rfl rfl
